import Mathlib

/-!
Verification of the JSON comparison engine in `comparar_json.py`.

The embedding models Python JSON values (`json.load` results) as the inductive
type `Value`: `None`, `bool`, `int`, `float`, `str`, `list`, `dict`.  Python
dicts are insertion-ordered maps with unique string keys, modelled as
association lists.  Python floats are modelled as exact rationals: standard
JSON has no NaN or infinities, and Python compares `int` with `float`
exactly, so every comparison the program performs on JSON numbers is exact
rational arithmetic.  (The one idealization: `float(n)` in `normalizar_valor`
is modelled as the exact rational `n`, whereas CPython rounds integers of
magnitude above 2^53; no claim below depends on numbers that large.)

Python strings are compared code point by code point; the builtin Lean
`String` order is not kernel-reducible, so the code-point order is defined
from scratch below (`lexLe`).
-/

/-- A parsed JSON value, as produced by Python's `json.load`. -/
inductive Value where
  | null : Value
  | bool (b : Bool) : Value
  | int (n : Int) : Value
  | float (q : ℚ) : Value
  | str (s : String) : Value
  | list (items : List Value) : Value
  | dict (entries : List (String × Value)) : Value
deriving Repr

/-- One difference record, the dictionary appended to `diferencas` by
`comparar_valores`; the seven fields are the seven CSV columns. -/
structure Registro where
  caminho : String
  tipo_diferenca : String
  valor_json1 : String
  tipo_json1 : String
  valor_json2 : String
  tipo_json2 : String
  detalhes : String
deriving Repr, DecidableEq

instance {ε α : Type} [DecidableEq ε] [DecidableEq α] : DecidableEq (Except ε α) := fun a b =>
  match a, b with
  | .ok x, .ok y =>
    if h : x = y then isTrue (by rw [h]) else isFalse (by intro hh; cases hh; exact h rfl)
  | .error x, .error y =>
    if h : x = y then isTrue (by rw [h]) else isFalse (by intro hh; cases hh; exact h rfl)
  | .ok _, .error _ => isFalse (by intro hh; cases hh)
  | .error _, .ok _ => isFalse (by intro hh; cases hh)

/-- Python's `<=` on strings, restricted to the character lists: lexicographic
comparison of Unicode code points.  (CPython compares strings code point by
code point.) -/
def lexLe : List Char → List Char → Bool
  | [], _ => true
  | _ :: _, [] => false
  | a :: as, b :: bs =>
    if a.toNat < b.toNat then true
    else if b.toNat < a.toNat then false
    else lexLe as bs

/-- Python's `s1 <= s2` for strings. -/
def pyStrLe (s1 s2 : String) : Bool := lexLe s1.data s2.data

theorem lexLe_total : ∀ a b : List Char, lexLe a b = true ∨ lexLe b a = true
  | [], _ => Or.inl rfl
  | _ :: _, [] => Or.inr rfl
  | a :: as, b :: bs => by
    by_cases h1 : a.toNat < b.toNat
    · exact Or.inl (by simp [lexLe, h1])
    · by_cases h2 : b.toNat < a.toNat
      · exact Or.inr (by simp [lexLe, h1, h2])
      · rcases lexLe_total as bs with h | h
        · exact Or.inl (by simp [lexLe, h1, h2, h])
        · exact Or.inr (by simp [lexLe, h1, h2, h])

theorem lexLe_trans : ∀ a b c : List Char,
    lexLe a b = true → lexLe b c = true → lexLe a c = true
  | [], _, _, _, _ => rfl
  | _ :: _, [], _, hab, _ => by simp [lexLe] at hab
  | _ :: _, _ :: _, [], _, hbc => by simp [lexLe] at hbc
  | a :: as, b :: bs, c :: cs, hab, hbc => by
    simp only [lexLe] at hab hbc ⊢
    split at hab
    · split at hbc
      · simp; omega
      · split at hbc
        · exact absurd hbc (by simp)
        · simp; omega
    · split at hab
      · exact absurd hab (by simp)
      · split at hbc
        · simp; omega
        · split at hbc
          · exact absurd hbc (by simp)
          · have : ¬ a.toNat < c.toNat → ¬ c.toNat < a.toNat → lexLe as cs = true :=
              fun _ _ => lexLe_trans as bs cs hab hbc
            split
            · rfl
            · split
              · omega
              · exact this (by assumption) (by assumption)

theorem lexLe_antisymm : ∀ a b : List Char,
    lexLe a b = true → lexLe b a = true → a = b
  | [], [], _, _ => rfl
  | [], _ :: _, _, hba => by simp [lexLe] at hba
  | _ :: _, [], hab, _ => by simp [lexLe] at hab
  | a :: as, b :: bs, hab, hba => by
    simp only [lexLe] at hab hba
    by_cases h1 : a.toNat < b.toNat
    · rw [if_neg (by omega), if_pos h1] at hba
      exact absurd hba (by simp)
    · by_cases h2 : b.toNat < a.toNat
      · rw [if_neg h1, if_pos h2] at hab
        exact absurd hab (by simp)
      · rw [if_neg h1, if_neg h2] at hab
        rw [if_neg h2, if_neg h1] at hba
        have h3 : a.toNat = b.toNat := by omega
        have hv : a = b := by
          have h4 : a.val.toNat = b.val.toNat := h3
          exact Char.ext (UInt32.ext h4)
        subst hv
        rw [lexLe_antisymm as bs hab hba]

theorem pyStrLe_total (s1 s2 : String) : pyStrLe s1 s2 = true ∨ pyStrLe s2 s1 = true :=
  lexLe_total s1.data s2.data

theorem pyStrLe_trans {s1 s2 s3 : String} (h1 : pyStrLe s1 s2 = true)
    (h2 : pyStrLe s2 s3 = true) : pyStrLe s1 s3 = true :=
  lexLe_trans s1.data s2.data s3.data h1 h2

theorem pyStrLe_antisymm {s1 s2 : String} (h1 : pyStrLe s1 s2 = true)
    (h2 : pyStrLe s2 s1 = true) : s1 = s2 := by
  cases s1; cases s2
  exact congrArg String.mk (lexLe_antisymm _ _ h1 h2)

/-- `obter_tipo` (lines 65-84): the runtime type name of a value.  `bool` is a
distinct name from `int` (CPython's `type(True).__name__` is `'bool'`); the
`<other>` fallthrough of the source cannot occur for parsed JSON. -/
def obter_tipo : Value → String
  | .null => "None"
  | .bool _ => "bool"
  | .int _ => "int"
  | .float _ => "float"
  | .str _ => "str"
  | .list _ => "list"
  | .dict _ => "dict"

/-- `normalizar_valor` (lines 7-13): numbers (including `bool`, which CPython
counts as `isinstance(·, int)`) are converted with `float(·)`; everything else
is returned unchanged.  `float(·)` on JSON numbers is modelled exactly. -/
def normalizar_valor : Value → Value
  | .int n => .float (n : ℚ)
  | .float q => .float q
  | .bool b => .float (if b then 1 else 0)
  | v => v

mutual
/-- Structural equality of values, Python's `==`/`!=` on parsed JSON data. -/
def vbeq : Value → Value → Bool
  | .null, .null => true
  | .bool a, .bool b => a == b
  | .int a, .int b => a == b
  | .float a, .float b => a == b
  | .str a, .str b => a == b
  | .list a, .list b => lbeq a b
  | .dict a, .dict b => dbeq a b
  | _, _ => false
def lbeq : List Value → List Value → Bool
  | [], [] => true
  | a :: as, b :: bs => vbeq a b && lbeq as bs
  | _, _ => false
def dbeq : List (String × Value) → List (String × Value) → Bool
  | [], [] => true
  | (k1, v1) :: as, (k2, v2) :: bs => k1 == k2 && vbeq v1 v2 && dbeq as bs
  | _, _ => false
end

mutual
theorem vbeq_refl : ∀ v : Value, vbeq v v = true
  | .null => rfl
  | .bool b => by simp [vbeq]
  | .int n => by simp [vbeq]
  | .float q => by simp [vbeq]
  | .str s => by simp [vbeq]
  | .list l => by simp [vbeq, lbeq_refl l]
  | .dict d => by simp [vbeq, dbeq_refl d]
theorem lbeq_refl : ∀ l : List Value, lbeq l l = true
  | [] => rfl
  | v :: t => by simp [lbeq, vbeq_refl v, lbeq_refl t]
theorem dbeq_refl : ∀ d : List (String × Value), dbeq d d = true
  | [] => rfl
  | (k, v) :: t => by simp [dbeq, vbeq_refl v, dbeq_refl t]
end

mutual
theorem vbeq_eq : ∀ v1 v2 : Value, vbeq v1 v2 = true → v1 = v2
  | .null, .null, _ => rfl
  | .bool a, .bool b, h => by simp [vbeq] at h; rw [h]
  | .int a, .int b, h => by simp [vbeq] at h; rw [h]
  | .float a, .float b, h => by simp [vbeq] at h; rw [h]
  | .str a, .str b, h => by simp [vbeq] at h; rw [h]
  | .list a, .list b, h => by rw [lbeq_eq a b (by simpa [vbeq] using h)]
  | .dict a, .dict b, h => by rw [dbeq_eq a b (by simpa [vbeq] using h)]
  | .null, .bool _, h => by simp [vbeq] at h
  | .null, .int _, h => by simp [vbeq] at h
  | .null, .float _, h => by simp [vbeq] at h
  | .null, .str _, h => by simp [vbeq] at h
  | .null, .list _, h => by simp [vbeq] at h
  | .null, .dict _, h => by simp [vbeq] at h
  | .bool _, .null, h => by simp [vbeq] at h
  | .bool _, .int _, h => by simp [vbeq] at h
  | .bool _, .float _, h => by simp [vbeq] at h
  | .bool _, .str _, h => by simp [vbeq] at h
  | .bool _, .list _, h => by simp [vbeq] at h
  | .bool _, .dict _, h => by simp [vbeq] at h
  | .int _, .null, h => by simp [vbeq] at h
  | .int _, .bool _, h => by simp [vbeq] at h
  | .int _, .float _, h => by simp [vbeq] at h
  | .int _, .str _, h => by simp [vbeq] at h
  | .int _, .list _, h => by simp [vbeq] at h
  | .int _, .dict _, h => by simp [vbeq] at h
  | .float _, .null, h => by simp [vbeq] at h
  | .float _, .bool _, h => by simp [vbeq] at h
  | .float _, .int _, h => by simp [vbeq] at h
  | .float _, .str _, h => by simp [vbeq] at h
  | .float _, .list _, h => by simp [vbeq] at h
  | .float _, .dict _, h => by simp [vbeq] at h
  | .str _, .null, h => by simp [vbeq] at h
  | .str _, .bool _, h => by simp [vbeq] at h
  | .str _, .int _, h => by simp [vbeq] at h
  | .str _, .float _, h => by simp [vbeq] at h
  | .str _, .list _, h => by simp [vbeq] at h
  | .str _, .dict _, h => by simp [vbeq] at h
  | .list _, .null, h => by simp [vbeq] at h
  | .list _, .bool _, h => by simp [vbeq] at h
  | .list _, .int _, h => by simp [vbeq] at h
  | .list _, .float _, h => by simp [vbeq] at h
  | .list _, .str _, h => by simp [vbeq] at h
  | .list _, .dict _, h => by simp [vbeq] at h
  | .dict _, .null, h => by simp [vbeq] at h
  | .dict _, .bool _, h => by simp [vbeq] at h
  | .dict _, .int _, h => by simp [vbeq] at h
  | .dict _, .float _, h => by simp [vbeq] at h
  | .dict _, .str _, h => by simp [vbeq] at h
  | .dict _, .list _, h => by simp [vbeq] at h
theorem lbeq_eq : ∀ l1 l2 : List Value, lbeq l1 l2 = true → l1 = l2
  | [], [], _ => rfl
  | [], _ :: _, h => by simp [lbeq] at h
  | _ :: _, [], h => by simp [lbeq] at h
  | a :: as, b :: bs, h => by
    simp only [lbeq, Bool.and_eq_true] at h
    rw [vbeq_eq a b h.1, lbeq_eq as bs h.2]
theorem dbeq_eq : ∀ d1 d2 : List (String × Value), dbeq d1 d2 = true → d1 = d2
  | [], [], _ => rfl
  | [], _ :: _, h => by simp [dbeq] at h
  | _ :: _, [], h => by simp [dbeq] at h
  | (k1, v1) :: as, (k2, v2) :: bs, h => by
    simp only [dbeq, Bool.and_eq_true] at h
    rw [eq_of_beq h.1.1, vbeq_eq v1 v2 h.1.2, dbeq_eq as bs h.2]
end

theorem vbeq_iff {v1 v2 : Value} : vbeq v1 v2 = true ↔ v1 = v2 :=
  ⟨vbeq_eq v1 v2, fun h => h ▸ vbeq_refl v1⟩

instance : DecidableEq Value := fun v1 v2 => decidable_of_iff (vbeq v1 v2 = true) vbeq_iff

/-- Python's `repr` of a float.  Floats are modelled as exact rationals;
Python's shortest-round-trip decimal text is approximated (integral values
print as `n.0`, others as `num/den`).  No proved claim depends on this text. -/
def floatStr (q : ℚ) : String :=
  if q.den = 1 then toString q.num ++ ".0" else toString q.num ++ "/" ++ toString q.den

/-- Python's `repr` quote choice for strings: single quotes, unless the string
contains `'` and no `"`.  Escape sequences inside the string are elided. -/
def pyQuote (s : String) : String :=
  if s.data.contains (Char.ofNat 39) ∧ ¬ s.data.contains (Char.ofNat 34) then
    "\"" ++ s ++ "\""
  else
    String.singleton (Char.ofNat 39) ++ s ++ String.singleton (Char.ofNat 39)

mutual
/-- Python's `repr` of a parsed JSON value (used by `str` on containers). -/
def repr_py : Value → String
  | .null => "None"
  | .bool b => if b then "True" else "False"
  | .int n => toString n
  | .float q => floatStr q
  | .str s => pyQuote s
  | .list l => "[" ++ String.intercalate ", " (reprList l) ++ "]"
  | .dict d => "\x7b" ++ String.intercalate ", " (reprEntries d) ++ "\x7d"
def reprList : List Value → List String
  | [] => []
  | v :: t => repr_py v :: reprList t
def reprEntries : List (String × Value) → List String
  | [] => []
  | (k, v) :: t => (pyQuote k ++ ": " ++ repr_py v) :: reprEntries t
end

/-- Python's `str(valor)`, used for the display columns of the records:
identical to `repr` except that a top-level string is shown without quotes. -/
def str_py : Value → String
  | .str s => s
  | v => repr_py v

mutual
/-- `json.dumps(x, sort_keys=True)`: the canonical serialization used by
`ordenar_lista` as the sort key of container elements.  At every nesting
level the keys of a dict are serialized in ascending code-point order (the
values are serialized first and the rendered entries then stably sorted by
key, which yields the same text).  JSON string escaping is elided: no proved
claim depends on the exact text. -/
def dumps : Value → String
  | .null => "null"
  | .bool b => if b then "true" else "false"
  | .int n => toString n
  | .float q => floatStr q
  | .str s => "\"" ++ s ++ "\""
  | .list l => "[" ++ String.intercalate ", " (dumpsList l) ++ "]"
  | .dict d =>
    "\x7b" ++ String.intercalate ", "
      ((List.insertionSort (fun a b : String × String => pyStrLe a.1 b.1 = true)
          (dumpsEntries d)).map (fun kv => "\"" ++ kv.1 ++ "\": " ++ kv.2)) ++ "\x7d"
def dumpsList : List Value → List String
  | [] => []
  | v :: t => dumps v :: dumpsList t
def dumpsEntries : List (String × Value) → List (String × String)
  | [] => []
  | (k, v) :: t => (k, dumps v) :: dumpsEntries t
end

/-- The comparison key of `sorted(resultado, key=lambda x: json.dumps(x,
sort_keys=True) if isinstance(x, (dict, list)) else x)`, abstracted into its
comparison class: CPython compares `int`, `float` and `bool` with exact
numeric comparison (one class), strings and the dumps text of containers by
code points (one class), and `None` is not orderable — not even against
another `None`. -/
inductive SKey where
  | num (q : ℚ) : SKey
  | strk (s : String) : SKey
  | nonek : SKey
deriving Repr, DecidableEq

def sortKey : Value → SKey
  | .null => .nonek
  | .bool b => .num (if b then 1 else 0)
  | .int n => .num (n : ℚ)
  | .float q => .num q
  | .str s => .strk s
  | .list l => .strk (dumps (.list l))
  | .dict d => .strk (dumps (.dict d))

/-- Whether Python may compare the two sort keys without a `TypeError`. -/
def comparavel (x y : Value) : Bool :=
  match sortKey x, sortKey y with
  | .num _, .num _ => true
  | .strk _, .strk _ => true
  | _, _ => false

/-- Order on sort keys.  Only the `num`/`num` and `strk`/`strk` arms are ever
exercised by `ordenar_lista` (the sort is attempted only when all elements
are in one comparison class); the cross-class arms are an arbitrary total
extension. -/
def skle : SKey → SKey → Bool
  | .num a, .num b => decide (a ≤ b)
  | .num _, _ => true
  | .strk _, .num _ => false
  | .strk a, .strk b => pyStrLe a b
  | .strk _, .nonek => true
  | .nonek, .nonek => true
  | .nonek, _ => false

/-- The element order used by the list sort. -/
def keyle (x y : Value) : Prop := skle (sortKey x) (sortKey y) = true

instance : DecidableRel keyle := fun x y => by unfold keyle; infer_instance

/-- The entry order of `sorted(dic.keys())`: ascending code-point order of
the key strings. -/
def entryle (a b : String × Value) : Prop := pyStrLe a.1 b.1 = true

instance : DecidableRel entryle := fun a b => by unfold entryle; infer_instance

instance : IsTotal Value keyle where
  total x y := by
    unfold keyle
    cases hx : sortKey x <;> cases hy : sortKey y <;> simp [skle]
    · exact le_total _ _
    · exact pyStrLe_total _ _

instance : IsTrans Value keyle where
  trans x y z := by
    unfold keyle
    cases hx : sortKey x <;> cases hy : sortKey y <;> cases hz : sortKey z <;>
      simp [skle]
    · exact fun h1 h2 => le_trans h1 h2
    · exact fun h1 h2 => pyStrLe_trans h1 h2

theorem skle_antisymm {a b : SKey} (h1 : skle a b = true) (h2 : skle b a = true) : a = b := by
  cases a <;> cases b <;> simp_all [skle]
  · exact le_antisymm h1 h2
  · exact pyStrLe_antisymm h1 h2

instance : IsTotal (String × Value) entryle where
  total a b := by unfold entryle; exact pyStrLe_total _ _

instance : IsTrans (String × Value) entryle where
  trans a b c := by unfold entryle; exact fun h1 h2 => pyStrLe_trans h1 h2

/-- All pairs of elements mutually comparable: the condition under which
Python's `sorted` completes without a `TypeError`.  (Each element after the
first is compared with at least one earlier element, and comparability is
class equality, hence transitive; so the sort raises iff some pair of
elements is incomparable.  A list of at most one element sorts to itself
either way.) -/
def allPairsComparable : List Value → Bool
  | [] => true
  | x :: xs => xs.all (fun y => comparavel x y) && allPairsComparable xs

/-- The guarded sort of `ordenar_lista` (lines 41-46): `sorted` either
completes or raises `TypeError`. -/
def sorted_or_err (l : List Value) : Except String (List Value) :=
  if allPairsComparable l then .ok (List.insertionSort keyle l) else .error "TypeError"

/-- The `try: return sorted(...) except TypeError: return resultado` of
`ordenar_lista`. -/
def sortMaybe (resultado : List Value) : List Value :=
  match sorted_or_err resultado with
  | .ok s => s
  | .error _ => resultado

/-- The key sort of `ordenar_dicionario` (and of the inline dict handling in
`ordenar_lista`): visit the entries in ascending key order.  Python iterates
`sorted(dic.keys())` and looks each key up; for a dict (whose keys are
unique) this is the same as stably sorting the entries by key. -/
def sortEntries (d : List (String × Value)) : List (String × Value) :=
  List.insertionSort entryle d

mutual
/-- The per-element canonicalization the source applies inside
`ordenar_lista` (lines 24-39) and `ordenar_dicionario` (lines 54-61): a dict
item is rewritten by the inline copy of `ordenar_dicionario`'s body, a list
item by `ordenar_lista`, and scalars are kept as they are.  Python sorts the
keys first and then canonicalizes each value; since the entry sort compares
keys only and canonicalization keeps keys unchanged, canonicalizing the
values first and then sorting the entries produces the same dict. -/
def canonV : Value → Value
  | .null => .null
  | .bool b => .bool b
  | .int n => .int n
  | .float q => .float q
  | .str s => .str s
  | .list l => .list (sortMaybe (canonList l))
  | .dict d => .dict (sortEntries (canonEntries d))
def canonList : List Value → List Value
  | [] => []
  | v :: t => canonV v :: canonList t
def canonEntries : List (String × Value) → List (String × Value)
  | [] => []
  | (k, v) :: t => (k, canonV v) :: canonEntries t
end

/-- `ordenar_lista` (lines 16-46): canonicalize every element, then try to
sort the result by the canonical sort key, keeping the unsorted result on a
`TypeError`. -/
def ordenar_lista (lista : List Value) : List Value :=
  sortMaybe (canonList lista)

/-- `ordenar_dicionario` (lines 49-62): visit the keys in ascending order,
canonicalizing every value. -/
def ordenar_dicionario (dic : List (String × Value)) : List (String × Value) :=
  sortEntries (canonEntries dic)

theorem canonV_list (l : List Value) : canonV (.list l) = .list (ordenar_lista l) := rfl

theorem canonV_dict (d : List (String × Value)) :
    canonV (.dict d) = .dict (ordenar_dicionario d) := rfl

theorem canonList_eq_map (l : List Value) : canonList l = l.map canonV := by
  induction l with
  | nil => rfl
  | cons v t ih => simp [canonList, ih]

theorem canonEntries_eq_map (d : List (String × Value)) :
    canonEntries d = d.map (fun p => (p.1, canonV p.2)) := by
  induction d with
  | nil => rfl
  | cons p t ih => cases p; simp [canonEntries, ih]

theorem perm_sizeOf {α : Type} [SizeOf α] {l1 l2 : List α} (h : l1.Perm l2) :
    sizeOf l1 = sizeOf l2 := by
  induction h with
  | nil => rfl
  | cons x _ ih => simp [ih]
  | swap x y l => simp; omega
  | trans _ _ ih1 ih2 => omega

theorem sortMaybe_perm (l : List Value) : (sortMaybe l).Perm l := by
  unfold sortMaybe sorted_or_err
  by_cases h : allPairsComparable l = true
  · simpa [h] using List.perm_insertionSort keyle l
  · simp [h]

theorem sortEntries_perm (d : List (String × Value)) : (sortEntries d).Perm d :=
  List.perm_insertionSort entryle d

mutual
theorem sizeOf_canonV : ∀ v : Value, sizeOf (canonV v) = sizeOf v
  | .null => rfl
  | .bool _ => rfl
  | .int _ => rfl
  | .float _ => rfl
  | .str _ => rfl
  | .list l => by
    simp only [canonV, Value.list.sizeOf_spec]
    rw [perm_sizeOf (sortMaybe_perm (canonList l)), sizeOf_canonList l]
  | .dict d => by
    simp only [canonV, Value.dict.sizeOf_spec]
    rw [perm_sizeOf (sortEntries_perm (canonEntries d)), sizeOf_canonEntries d]
theorem sizeOf_canonList : ∀ l : List Value, sizeOf (canonList l) = sizeOf l
  | [] => rfl
  | v :: t => by simp [canonList, sizeOf_canonV v, sizeOf_canonList t]
theorem sizeOf_canonEntries : ∀ d : List (String × Value), sizeOf (canonEntries d) = sizeOf d
  | [] => rfl
  | (k, v) :: t => by simp [canonEntries, sizeOf_canonV v, sizeOf_canonEntries t]
end

theorem sizeOf_ordenar_lista (l : List Value) : sizeOf (ordenar_lista l) = sizeOf l := by
  unfold ordenar_lista
  rw [perm_sizeOf (sortMaybe_perm (canonList l)), sizeOf_canonList l]

theorem sizeOf_ordenar_dicionario (d : List (String × Value)) :
    sizeOf (ordenar_dicionario d) = sizeOf d := by
  unfold ordenar_dicionario
  rw [perm_sizeOf (sortEntries_perm (canonEntries d)), sizeOf_canonEntries d]

/-- Python's `dic[chave]` on an association list.  Total: the differ only
looks up keys it has just enumerated from the dict, so the `none` fallback
is unreachable. -/
def dict_get (dic : List (String × Value)) (chave : String) : Value :=
  match dic.find? (fun par => par.1 == chave) with
  | some par => par.2
  | none => .null

theorem sizeOf_list_pos {α : Type} [SizeOf α] (l : List α) : 1 ≤ sizeOf l := by
  cases l with
  | nil => simp
  | cons a t => simp; omega

theorem sizeOf_dict_get (dic : List (String × Value)) (chave : String) :
    sizeOf (dict_get dic chave) ≤ sizeOf dic := by
  unfold dict_get
  cases h : dic.find? (fun par => par.1 == chave) with
  | none =>
    have := sizeOf_list_pos dic
    simpa using this
  | some par =>
    have hm := List.mem_of_find?_eq_some h
    have hlt := List.sizeOf_lt_of_mem hm
    cases par
    simp at hlt ⊢
    omega

/-- Path extension for object keys: `f"{caminho}.{chave}" if caminho else chave`. -/
def novo_caminho (caminho chave : String) : String :=
  if caminho = "" then chave else caminho ++ "." ++ chave

/-- The TIPO_DIFERENTE record (lines 97-107).  Note the right display: the
code uses the missing-field sentinel whenever `valor2 is None`, i.e. whenever
the right value is the JSON `null`. -/
def registro_tipo (valor1 valor2 : Value) (caminho : String) : Registro :=
  { caminho := caminho
    tipo_diferenca := "TIPO_DIFERENTE"
    valor_json1 := str_py valor1
    tipo_json1 := obter_tipo valor1
    valor_json2 := match valor2 with
      | .null => "CAMPO_NAO_EXISTE"
      | v => str_py v
    tipo_json2 := obter_tipo valor2
    detalhes := "Tipos diferentes: " ++ obter_tipo valor1 ++ " vs " ++ obter_tipo valor2 }

/-- The QUANTIDADE_ITENS_DIFERENTE record (lines 115-124). -/
def registro_quantidade (n1 n2 : Nat) (caminho : String) : Registro :=
  { caminho := caminho
    tipo_diferenca := "QUANTIDADE_ITENS_DIFERENTE"
    valor_json1 := "Lista com " ++ toString n1 ++ " itens"
    tipo_json1 := "list"
    valor_json2 := "Lista com " ++ toString n2 ++ " itens"
    tipo_json2 := "list"
    detalhes := "Quantidade diferente: " ++ toString n1 ++ " vs " ++ toString n2 }

/-- The ITEM_AUSENTE_JSON2 record (lines 132-141). -/
def registro_item_ausente2 (item : Value) (caminho : String) : Registro :=
  { caminho := caminho
    tipo_diferenca := "ITEM_AUSENTE_JSON2"
    valor_json1 := str_py item
    tipo_json1 := obter_tipo item
    valor_json2 := "ITEM_NAO_EXISTE"
    tipo_json2 := "N/A"
    detalhes := "Item existe no JSON1 mas não no JSON2" }

/-- The ITEM_AUSENTE_JSON1 record (lines 142-151). -/
def registro_item_ausente1 (item : Value) (caminho : String) : Registro :=
  { caminho := caminho
    tipo_diferenca := "ITEM_AUSENTE_JSON1"
    valor_json1 := "ITEM_NAO_EXISTE"
    tipo_json1 := "N/A"
    valor_json2 := str_py item
    tipo_json2 := obter_tipo item
    detalhes := "Item existe no JSON2 mas não no JSON1" }

/-- The CAMPO_AUSENTE_JSON2 record (lines 160-170). -/
def registro_campo_ausente (valor : Value) (caminho : String) : Registro :=
  { caminho := caminho
    tipo_diferenca := "CAMPO_AUSENTE_JSON2"
    valor_json1 := str_py valor
    tipo_json1 := obter_tipo valor
    valor_json2 := "CAMPO_NAO_EXISTE"
    tipo_json2 := "N/A"
    detalhes := "Campo existe no JSON1 mas não no JSON2" }

/-- The VALOR_DIFERENTE record (lines 183-192). -/
def registro_valor (valor1 valor2 : Value) (caminho : String) : Registro :=
  { caminho := caminho
    tipo_diferenca := "VALOR_DIFERENTE"
    valor_json1 := str_py valor1
    tipo_json1 := obter_tipo valor1
    valor_json2 := str_py valor2
    tipo_json2 := obter_tipo valor2
    detalhes := "Valores diferentes: " ++ str_py valor1 ++ " vs " ++ str_py valor2 }

mutual
/-- `comparar_valores` (lines 87-194).  The type check comes first and on a
mismatch nothing else runs; lists are defensively re-sorted and walked index
by index up to the longer length; dicts report left-only keys and recurse on
common keys (CPython iterates `set` objects in an unspecified hash order; the
embedding iterates the keys in the left dict's insertion order, and every
proved statement is insensitive to that order); scalars are compared after
numeric normalization. -/
def comparar_valores (valor1 valor2 : Value) (caminho : String) : List Registro :=
  if obter_tipo valor1 ≠ obter_tipo valor2 then
    [registro_tipo valor1 valor2 caminho]
  else
    match valor1, valor2 with
    | .list lista1, .list lista2 =>
      let lista1_ordenada := ordenar_lista lista1
      let lista2_ordenada := ordenar_lista lista2
      (if lista1_ordenada.length ≠ lista2_ordenada.length then
        [registro_quantidade lista1_ordenada.length lista2_ordenada.length caminho]
      else []) ++ comparar_itens lista1_ordenada lista2_ordenada caminho 0
    | .dict dic1, .dict dic2 =>
      let chaves1 := dic1.map Prod.fst
      let chaves2 := dic2.map Prod.fst
      (chaves1.filter (fun chave => !(chaves2.contains chave))).map
        (fun chave => registro_campo_ausente (dict_get dic1 chave) (novo_caminho caminho chave)) ++
        comparar_comuns dic1 dic2 (chaves1.filter (fun chave => chaves2.contains chave)) caminho
    | v1, v2 =>
      if vbeq (normalizar_valor v1) (normalizar_valor v2) then []
      else [registro_valor v1 v2 caminho]
termination_by (sizeOf valor1 + sizeOf valor2, 0)
decreasing_by
  · simp only [Prod.lex_def, Value.list.sizeOf_spec, sizeOf_ordenar_lista]
    left
    omega
  · simp only [Prod.lex_def, Value.dict.sizeOf_spec]
    left
    omega

/-- The index loop of the list branch (lines 127-151), phrased over the two
sorted lists: `for i in range(max_len)` visits first the indices present in
both lists, then the tail of the longer one. -/
def comparar_itens : List Value → List Value → String → Nat → List Registro
  | [], [], _, _ => []
  | item1 :: resto1, item2 :: resto2, caminho, i =>
    comparar_valores item1 item2 (caminho ++ "[" ++ toString i ++ "]") ++
      comparar_itens resto1 resto2 caminho (i + 1)
  | item1 :: resto1, [], caminho, i =>
    registro_item_ausente2 item1 (caminho ++ "[" ++ toString i ++ "]") ::
      comparar_itens resto1 [] caminho (i + 1)
  | [], item2 :: resto2, caminho, i =>
    registro_item_ausente1 item2 (caminho ++ "[" ++ toString i ++ "]") ::
      comparar_itens [] resto2 caminho (i + 1)
termination_by l1 l2 _ _ => (sizeOf l1 + sizeOf l2, 1)
decreasing_by
  · simp only [Prod.lex_def, List.cons.sizeOf_spec]
    left
    omega
  · simp only [Prod.lex_def, List.cons.sizeOf_spec]
    left
    omega
  · simp only [Prod.lex_def, List.cons.sizeOf_spec]
    left
    omega
  · simp only [Prod.lex_def, List.cons.sizeOf_spec]
    left
    omega

/-- The common-key loop of the dict branch (lines 172-176). -/
def comparar_comuns (dic1 dic2 : List (String × Value)) :
    List String → String → List Registro
  | [], _ => []
  | chave :: resto, caminho =>
    comparar_valores (dict_get dic1 chave) (dict_get dic2 chave) (novo_caminho caminho chave) ++
      comparar_comuns dic1 dic2 resto caminho
termination_by resto _ => (sizeOf dic1 + sizeOf dic2 + 1, resto.length)
decreasing_by
  · simp only [Prod.lex_def]
    left
    have h1 := sizeOf_dict_get dic1 chave
    have h2 := sizeOf_dict_get dic2 chave
    omega
  · simp only [Prod.lex_def]
    right
    simp
end

/-- The canonicalization `comparar_json` applies to each argument (lines
204-205): Python calls `ordenar_dicionario`, whose body begins with
`sorted(dic.keys())`; on a non-dict argument (top-level array or scalar)
the attribute lookup `.keys()` raises `AttributeError`. -/
def ordenar_json_raiz : Value → Except String Value
  | .dict dic => .ok (.dict (ordenar_dicionario dic))
  | _ => .error "AttributeError: object has no attribute keys"

/-- `comparar_json` (lines 197-210): canonicalize both arguments, then
compare them at the empty path. -/
def comparar_json (json1 json2 : Value) : Except String (List Registro) :=
  match ordenar_json_raiz json1 with
  | .error e => .error e
  | .ok json1_ordenado =>
    match ordenar_json_raiz json2 with
    | .error e => .error e
    | .ok json2_ordenado => .ok (comparar_valores json1_ordenado json2_ordenado "")

/-- A value that is neither a list nor a dict, handled by the scalar branch
of `comparar_valores`. -/
def isScalar : Value → Bool
  | .list _ => false
  | .dict _ => false
  | _ => true

mutual
/-- The equivalence `comparar_valores` actually decides, read off the code:
equal runtime kinds at every compared position; lists compared after the
defensive re-sort, with equal lengths and pointwise equivalent items; objects
requiring every left key to be present on the right (keys present only on the
right are invisible to the code) with equivalent values at common keys; and
scalars equal after numeric normalization.  `comparar_valores` returns no
records exactly when the two values are related by this predicate. -/
def iguais_para_diff (v1 v2 : Value) : Bool :=
  if obter_tipo v1 ≠ obter_tipo v2 then false
  else
    match v1, v2 with
    | .list l1, .list l2 =>
      (ordenar_lista l1).length == (ordenar_lista l2).length &&
        iguais_lista (ordenar_lista l1) (ordenar_lista l2)
    | .dict d1, .dict d2 =>
      ((d1.map Prod.fst).filter (fun chave => !((d2.map Prod.fst).contains chave))).isEmpty &&
        iguais_comuns d1 d2 ((d1.map Prod.fst).filter (fun chave => (d2.map Prod.fst).contains chave))
    | v1, v2 => vbeq (normalizar_valor v1) (normalizar_valor v2)
termination_by (sizeOf v1 + sizeOf v2, 0)
decreasing_by
  · simp only [Prod.lex_def, Value.list.sizeOf_spec, sizeOf_ordenar_lista]
    left
    omega
  · simp only [Prod.lex_def, Value.dict.sizeOf_spec]
    left
    omega

def iguais_lista : List Value → List Value → Bool
  | [], [] => true
  | a :: as, b :: bs => iguais_para_diff a b && iguais_lista as bs
  | [], _ :: _ => false
  | _ :: _, [] => false
termination_by l1 l2 => (sizeOf l1 + sizeOf l2, 1)
decreasing_by
  · simp only [Prod.lex_def, List.cons.sizeOf_spec]
    left
    omega
  · simp only [Prod.lex_def, List.cons.sizeOf_spec]
    left
    omega

def iguais_comuns (dic1 dic2 : List (String × Value)) : List String → Bool
  | [] => true
  | chave :: resto =>
    iguais_para_diff (dict_get dic1 chave) (dict_get dic2 chave) && iguais_comuns dic1 dic2 resto
termination_by resto => (sizeOf dic1 + sizeOf dic2 + 1, resto.length)
decreasing_by
  · simp only [Prod.lex_def]
    left
    have h1 := sizeOf_dict_get dic1 chave
    have h2 := sizeOf_dict_get dic2 chave
    omega
  · simp only [Prod.lex_def]
    right
    simp
end

mutual
/-- The spec's type+value deep-equality rule, written from the spec's words
(section 3: numbers are a single numeric kind, so an integer and a float that
are numerically equal are equal; booleans and null are their own kinds;
arrays pointwise — the claim applies the rule to canonical forms, whose
arrays are canonically sorted; objects with equal key sequences — canonical
forms are key-sorted, so equal key sets mean equal sequences — and equal
values key by key). -/
def specDeepEq : Value → Value → Bool
  | .null, .null => true
  | .bool a, .bool b => a == b
  | .int a, .int b => a == b
  | .int a, .float b => (a : ℚ) == b
  | .float a, .int b => a == (b : ℚ)
  | .float a, .float b => a == b
  | .str a, .str b => a == b
  | .list a, .list b => specList a b
  | .dict a, .dict b => specEntries a b
  | _, _ => false
def specList : List Value → List Value → Bool
  | [], [] => true
  | a :: as, b :: bs => specDeepEq a b && specList as bs
  | _, _ => false
def specEntries : List (String × Value) → List (String × Value) → Bool
  | [], [] => true
  | (k1, v1) :: as, (k2, v2) :: bs => k1 == k2 && specDeepEq v1 v2 && specEntries as bs
  | _, _ => false
end

theorem cv_ne {v1 v2 : Value} (c : String) (h : obter_tipo v1 ≠ obter_tipo v2) :
    comparar_valores v1 v2 c = [registro_tipo v1 v2 c] := by
  rw [comparar_valores.eq_def, if_pos h]

theorem cv_list (l1 l2 : List Value) (c : String) :
    comparar_valores (.list l1) (.list l2) c =
      (if (ordenar_lista l1).length ≠ (ordenar_lista l2).length then
        [registro_quantidade (ordenar_lista l1).length (ordenar_lista l2).length c]
      else []) ++ comparar_itens (ordenar_lista l1) (ordenar_lista l2) c 0 := by
  rw [comparar_valores.eq_def]
  simp [obter_tipo]

theorem cv_dict (d1 d2 : List (String × Value)) (c : String) :
    comparar_valores (.dict d1) (.dict d2) c =
      ((d1.map Prod.fst).filter (fun chave => !((d2.map Prod.fst).contains chave))).map
        (fun chave => registro_campo_ausente (dict_get d1 chave) (novo_caminho c chave)) ++
        comparar_comuns d1 d2
          ((d1.map Prod.fst).filter (fun chave => (d2.map Prod.fst).contains chave)) c := by
  rw [comparar_valores.eq_def]
  simp [obter_tipo]

theorem cv_scalar (v1 v2 : Value) (c : String) (h : obter_tipo v1 = obter_tipo v2)
    (h1 : isScalar v1 = true) :
    comparar_valores v1 v2 c =
      if vbeq (normalizar_valor v1) (normalizar_valor v2) then []
      else [registro_valor v1 v2 c] := by
  cases v1 <;> cases v2 <;> rw [comparar_valores.eq_def] <;> simp_all [obter_tipo, isScalar]

theorem sizeOf_value_pos (v : Value) : 1 ≤ sizeOf v := by
  cases v <;> simp

theorem mem_ordenar_lista {x : Value} {l : List Value} (hx : x ∈ ordenar_lista l) :
    ∃ y ∈ l, x = canonV y := by
  unfold ordenar_lista at hx
  rw [(sortMaybe_perm (canonList l)).mem_iff, canonList_eq_map] at hx
  obtain ⟨y, hy, hxy⟩ := List.mem_map.mp hx
  exact ⟨y, hy, hxy.symm⟩

theorem sizeOf_mem_ordenar_lista {x : Value} {l : List Value} (hx : x ∈ ordenar_lista l) :
    sizeOf x < 1 + sizeOf l := by
  obtain ⟨y, hy, hxy⟩ := mem_ordenar_lista hx
  have h1 := List.sizeOf_lt_of_mem hy
  rw [hxy, sizeOf_canonV]
  omega

/-- Which of the four branch shapes a call of `comparar_valores` takes. -/
theorem cv_cases (v1 v2 : Value) (c : String) :
    (obter_tipo v1 ≠ obter_tipo v2 ∧ comparar_valores v1 v2 c = [registro_tipo v1 v2 c]) ∨
    (∃ l1 l2, v1 = .list l1 ∧ v2 = .list l2) ∨
    (∃ d1 d2, v1 = .dict d1 ∧ v2 = .dict d2) ∨
    (isScalar v1 = true ∧ obter_tipo v1 = obter_tipo v2 ∧
      comparar_valores v1 v2 c =
        if vbeq (normalizar_valor v1) (normalizar_valor v2) then []
        else [registro_valor v1 v2 c]) := by
  by_cases h : obter_tipo v1 = obter_tipo v2
  · cases v1 <;> cases v2 <;> simp_all [obter_tipo]
    all_goals
      exact ⟨by simp [isScalar], cv_scalar _ _ c (by simp [obter_tipo]) (by simp [isScalar])⟩
  · exact Or.inl ⟨h, cv_ne c h⟩

theorem ig_ne {v1 v2 : Value} (h : obter_tipo v1 ≠ obter_tipo v2) :
    iguais_para_diff v1 v2 = false := by
  rw [iguais_para_diff.eq_def, if_pos h]

theorem ig_list (l1 l2 : List Value) :
    iguais_para_diff (.list l1) (.list l2) =
      ((ordenar_lista l1).length == (ordenar_lista l2).length &&
        iguais_lista (ordenar_lista l1) (ordenar_lista l2)) := by
  rw [iguais_para_diff.eq_def]
  simp [obter_tipo]

theorem ig_dict (d1 d2 : List (String × Value)) :
    iguais_para_diff (.dict d1) (.dict d2) =
      (((d1.map Prod.fst).filter (fun chave => !((d2.map Prod.fst).contains chave))).isEmpty &&
        iguais_comuns d1 d2
          ((d1.map Prod.fst).filter (fun chave => (d2.map Prod.fst).contains chave))) := by
  rw [iguais_para_diff.eq_def]
  simp [obter_tipo]

theorem ig_scalar (v1 v2 : Value) (h : obter_tipo v1 = obter_tipo v2)
    (h1 : isScalar v1 = true) :
    iguais_para_diff v1 v2 = vbeq (normalizar_valor v1) (normalizar_valor v2) := by
  cases v1 <;> cases v2 <;> rw [iguais_para_diff.eq_def] <;> simp_all [obter_tipo, isScalar]

theorem comparar_itens_self (l : List Value) (c : String) (i : Nat)
    (h : ∀ x ∈ l, ∀ c0 : String, comparar_valores x x c0 = []) :
    comparar_itens l l c i = [] := by
  induction l generalizing i with
  | nil => rw [comparar_itens]
  | cons a t ih =>
    rw [comparar_itens]
    rw [h a (by simp) _, ih (i + 1) (fun x hx c0 => h x (List.mem_cons_of_mem a hx) c0)]
    rfl

theorem comparar_comuns_self (d : List (String × Value)) (ks : List String) (c : String)
    (h : ∀ k ∈ ks, ∀ c0 : String, comparar_valores (dict_get d k) (dict_get d k) c0 = []) :
    comparar_comuns d d ks c = [] := by
  induction ks with
  | nil => rw [comparar_comuns]
  | cons k t ih =>
    rw [comparar_comuns]
    rw [h k (by simp) _, ih (fun k hk c0 => h k (List.mem_cons_of_mem _ hk) c0)]
    rfl

theorem cv_refl_aux : ∀ n : Nat, ∀ v : Value, ∀ c : String,
    sizeOf v ≤ n → comparar_valores v v c = [] := by
  intro n
  induction n with
  | zero => intro v c hv; have := sizeOf_value_pos v; omega
  | succ n ih =>
    intro v c hv
    rcases cv_cases v v c with ⟨h, _⟩ | ⟨l1, l2, rfl, h2⟩ | ⟨d1, d2, rfl, h2⟩ | ⟨_, _, heq⟩
    · exact absurd rfl h
    · injection h2 with h3
      subst h3
      rw [cv_list]
      rw [if_neg (by simp)]
      rw [comparar_itens_self _ _ _ (fun x hx c0 => by
        have hs := sizeOf_mem_ordenar_lista hx
        have hl : sizeOf (Value.list l1) ≤ n + 1 := hv
        simp at hl
        exact ih x c0 (by omega))]
      rfl
    · injection h2 with h3
      subst h3
      rw [cv_dict]
      have hfilter : (d1.map Prod.fst).filter
          (fun chave => !((d1.map Prod.fst).contains chave)) = [] := by
        apply List.filter_eq_nil_iff.mpr
        intro a ha
        simp only [List.elem_iff.mpr ha, Bool.not_true]
        exact fun h => Bool.false_ne_true h
      rw [hfilter]
      rw [comparar_comuns_self _ _ _ (fun k hk c0 => by
        have hs := sizeOf_dict_get d1 k
        have hl : sizeOf (Value.dict d1) ≤ n + 1 := hv
        simp at hl
        exact ih _ c0 (by omega))]
      rfl
    · rw [heq, if_pos (vbeq_refl _)]

/-- `diff(v, v)` is empty: the reflexivity property of section 8. -/
theorem cv_refl (v : Value) (c : String) : comparar_valores v v c = [] :=
  cv_refl_aux (sizeOf v) v c le_rfl

theorem flatMap_congr {α β : Type} {l : List α} {f g : α → List β}
    (h : ∀ a ∈ l, f a = g a) : l.flatMap f = l.flatMap g := by
  induction l with
  | nil => rfl
  | cons a t ih =>
    rw [List.flatMap_cons, List.flatMap_cons, h a (by simp),
      ih (fun x hx => h x (List.mem_cons_of_mem a hx))]

theorem flatMap_map_succ {α : Type} (l : List Nat) (f : Nat → List α) :
    (l.map Nat.succ).flatMap f = l.flatMap (fun j => f (j + 1)) := by
  induction l with
  | nil => rfl
  | cons a t ih => simp only [List.map_cons, List.flatMap_cons, ih, Nat.succ_eq_add_one]

/-- The loop over common keys is the concatenation of the per-key
comparisons. -/
theorem comparar_comuns_eq_flatMap (d1 d2 : List (String × Value)) (ks : List String)
    (c : String) :
    comparar_comuns d1 d2 ks c =
      ks.flatMap (fun k =>
        comparar_valores (dict_get d1 k) (dict_get d2 k) (novo_caminho c k)) := by
  induction ks with
  | nil => rw [comparar_comuns]; rfl
  | cons k t ih => rw [comparar_comuns, List.flatMap_cons, ih]

/-- The index walk over the two sorted lists is Python's
`for i in range(max_len)` loop: recursion where the index is present in both
lists, a missing-item record where it falls off one of them. -/
theorem comparar_itens_eq_range : ∀ (l1 l2 : List Value) (c : String) (i : Nat),
    comparar_itens l1 l2 c i =
      (List.range (max l1.length l2.length)).flatMap (fun j =>
        match l1[j]?, l2[j]? with
        | some a, some b => comparar_valores a b (c ++ "[" ++ toString (i + j) ++ "]")
        | some a, none => [registro_item_ausente2 a (c ++ "[" ++ toString (i + j) ++ "]")]
        | none, some b => [registro_item_ausente1 b (c ++ "[" ++ toString (i + j) ++ "]")]
        | none, none => []) := by
  intro l1
  induction l1 with
  | nil =>
    intro l2 c i
    induction l2 generalizing i with
    | nil => rw [comparar_itens]; rfl
    | cons b bs ihb =>
      rw [comparar_itens]
      simp only [List.length_nil, List.length_cons, Nat.zero_max,
        List.range_succ_eq_map, List.flatMap_cons, flatMap_map_succ]
      rw [ihb (i + 1)]
      simp only [List.length_nil, List.length_cons, Nat.zero_max, List.getElem?_nil,
        List.getElem?_cons_zero, List.getElem?_cons_succ, Nat.add_zero]
      congr 1
      apply flatMap_congr
      intro j hj
      have : i + (j + 1) = i + 1 + j := by omega
      rw [this]
  | cons a as iha =>
    intro l2 c i
    cases l2 with
    | nil =>
      rw [comparar_itens]
      simp only [List.length_cons, List.length_nil, Nat.max_zero,
        List.range_succ_eq_map, List.flatMap_cons, flatMap_map_succ]
      rw [iha [] c (i + 1)]
      simp only [List.length_nil, List.length_cons, Nat.max_zero, List.getElem?_nil,
        List.getElem?_cons_zero, List.getElem?_cons_succ, Nat.add_zero]
      congr 1
      apply flatMap_congr
      intro j hj
      have : i + (j + 1) = i + 1 + j := by omega
      rw [this]
    | cons b bs =>
      rw [comparar_itens]
      simp only [List.length_cons, Nat.succ_max_succ,
        List.range_succ_eq_map, List.flatMap_cons, flatMap_map_succ]
      rw [iha bs c (i + 1)]
      simp only [List.getElem?_cons_zero, List.getElem?_cons_succ, Nat.add_zero]
      congr 1
      apply flatMap_congr
      intro j hj
      have : i + (j + 1) = i + 1 + j := by omega
      rw [this]

/-- The branch body of `comparar_valores` with the recursive call abstracted:
used to build a structurally recursive twin of the differ. -/
def cvStep (rec : Value → Value → String → List Registro)
    (valor1 valor2 : Value) (caminho : String) : List Registro :=
  if obter_tipo valor1 ≠ obter_tipo valor2 then [registro_tipo valor1 valor2 caminho]
  else
    match valor1, valor2 with
    | .list l1, .list l2 =>
      (if (ordenar_lista l1).length ≠ (ordenar_lista l2).length then
        [registro_quantidade (ordenar_lista l1).length (ordenar_lista l2).length caminho]
      else []) ++
      (List.range (max (ordenar_lista l1).length (ordenar_lista l2).length)).flatMap (fun j =>
        match (ordenar_lista l1)[j]?, (ordenar_lista l2)[j]? with
        | some a, some b => rec a b (caminho ++ "[" ++ toString j ++ "]")
        | some a, none => [registro_item_ausente2 a (caminho ++ "[" ++ toString j ++ "]")]
        | none, some b => [registro_item_ausente1 b (caminho ++ "[" ++ toString j ++ "]")]
        | none, none => [])
    | .dict d1, .dict d2 =>
      ((d1.map Prod.fst).filter (fun chave => !((d2.map Prod.fst).contains chave))).map
        (fun chave => registro_campo_ausente (dict_get d1 chave) (novo_caminho caminho chave)) ++
      ((d1.map Prod.fst).filter (fun chave => (d2.map Prod.fst).contains chave)).flatMap
        (fun chave => rec (dict_get d1 chave) (dict_get d2 chave) (novo_caminho caminho chave))
    | v1, v2 =>
      if vbeq (normalizar_valor v1) (normalizar_valor v2) then []
      else [registro_valor v1 v2 caminho]

/-- A structurally recursive twin of `comparar_valores`, driven by explicit
fuel, used only to evaluate the differ on concrete inputs by kernel
reduction (`comparar_valores` itself is defined by well-founded recursion,
which the kernel does not unfold).  `cv_eq_fuel` proves the two agree
whenever the fuel covers the combined size of the arguments. -/
def cvFuel : Nat → Value → Value → String → List Registro
  | 0, _, _, _ => []
  | fuel + 1, valor1, valor2, caminho =>
    cvStep (fun a b p => cvFuel fuel a b p) valor1 valor2 caminho

theorem cvFuel_succ (fuel : Nat) (v1 v2 : Value) (c : String) :
    cvFuel (fuel + 1) v1 v2 c = cvStep (fun a b p => cvFuel fuel a b p) v1 v2 c := rfl

theorem cvs_ne {v1 v2 : Value} (rec : Value → Value → String → List Registro) (c : String)
    (h : obter_tipo v1 ≠ obter_tipo v2) :
    cvStep rec v1 v2 c = [registro_tipo v1 v2 c] := by
  unfold cvStep
  rw [if_pos h]

theorem cvs_list (rec : Value → Value → String → List Registro) (l1 l2 : List Value)
    (c : String) :
    cvStep rec (.list l1) (.list l2) c =
      (if (ordenar_lista l1).length ≠ (ordenar_lista l2).length then
        [registro_quantidade (ordenar_lista l1).length (ordenar_lista l2).length c]
      else []) ++
      (List.range (max (ordenar_lista l1).length (ordenar_lista l2).length)).flatMap (fun j =>
        match (ordenar_lista l1)[j]?, (ordenar_lista l2)[j]? with
        | some a, some b => rec a b (c ++ "[" ++ toString j ++ "]")
        | some a, none => [registro_item_ausente2 a (c ++ "[" ++ toString j ++ "]")]
        | none, some b => [registro_item_ausente1 b (c ++ "[" ++ toString j ++ "]")]
        | none, none => []) := by
  unfold cvStep
  simp [obter_tipo]

theorem cvs_dict (rec : Value → Value → String → List Registro)
    (d1 d2 : List (String × Value)) (c : String) :
    cvStep rec (.dict d1) (.dict d2) c =
      ((d1.map Prod.fst).filter (fun chave => !((d2.map Prod.fst).contains chave))).map
        (fun chave => registro_campo_ausente (dict_get d1 chave) (novo_caminho c chave)) ++
      ((d1.map Prod.fst).filter (fun chave => (d2.map Prod.fst).contains chave)).flatMap
        (fun chave => rec (dict_get d1 chave) (dict_get d2 chave) (novo_caminho c chave)) := by
  unfold cvStep
  simp [obter_tipo]

theorem cvs_scalar (rec : Value → Value → String → List Registro) (v1 v2 : Value)
    (c : String) (h : obter_tipo v1 = obter_tipo v2) (h1 : isScalar v1 = true) :
    cvStep rec v1 v2 c =
      if vbeq (normalizar_valor v1) (normalizar_valor v2) then []
      else [registro_valor v1 v2 c] := by
  cases v1 <;> cases v2 <;> unfold cvStep <;> simp_all [obter_tipo, isScalar]

theorem cv_eq_fuel : ∀ (fuel : Nat) (v1 v2 : Value) (c : String),
    sizeOf v1 + sizeOf v2 ≤ fuel → comparar_valores v1 v2 c = cvFuel fuel v1 v2 c := by
  intro fuel
  induction fuel with
  | zero =>
    intro v1 v2 c h
    have := sizeOf_value_pos v1
    have := sizeOf_value_pos v2
    omega
  | succ fuel ih =>
    intro v1 v2 c hv
    rcases cv_cases v1 v2 c with ⟨h, heq⟩ | ⟨l1, l2, rfl, rfl⟩ | ⟨d1, d2, rfl, rfl⟩ |
      ⟨hs, ht, heq⟩
    · rw [heq, cvFuel_succ, cvs_ne _ c h]
    · rw [cv_list, cvFuel_succ, cvs_list, comparar_itens_eq_range]
      congr 1
      apply flatMap_congr
      intro j hj
      simp only [Nat.zero_add]
      cases h1 : (ordenar_lista l1)[j]? with
      | none => cases h2 : (ordenar_lista l2)[j]? <;> rfl
      | some a =>
        cases h2 : (ordenar_lista l2)[j]? with
        | none => rfl
        | some b =>
          have ha := sizeOf_mem_ordenar_lista (List.getElem?_mem h1)
          have hb := sizeOf_mem_ordenar_lista (List.getElem?_mem h2)
          have hl : sizeOf (Value.list l1) + sizeOf (Value.list l2) ≤ fuel + 1 := hv
          simp only [Value.list.sizeOf_spec] at hl
          exact ih a b _ (by omega)
    · rw [cv_dict, cvFuel_succ, cvs_dict, comparar_comuns_eq_flatMap]
      congr 1
      apply flatMap_congr
      intro k hk
      have h1 := sizeOf_dict_get d1 k
      have h2 := sizeOf_dict_get d2 k
      have hl : sizeOf (Value.dict d1) + sizeOf (Value.dict d2) ≤ fuel + 1 := hv
      simp only [Value.dict.sizeOf_spec] at hl
      exact ih _ _ _ (by omega)
    · rw [heq, cvFuel_succ, cvs_scalar _ v1 v2 c ht hs]

/-- On two dict roots `comparar_json` canonicalizes both and compares at the
empty path. -/
theorem comparar_json_dict (d1 d2 : List (String × Value)) :
    comparar_json (.dict d1) (.dict d2) =
      .ok (comparar_valores (.dict (ordenar_dicionario d1))
        (.dict (ordenar_dicionario d2)) "") := rfl

theorem itens_empty_iff (l1 : List Value) : ∀ (l2 : List Value) (c : String) (i : Nat),
    (∀ a ∈ l1, ∀ b ∈ l2, ∀ c0 : String,
      (comparar_valores a b c0 = [] ↔ iguais_para_diff a b = true)) →
    (comparar_itens l1 l2 c i = [] ↔ iguais_lista l1 l2 = true) := by
  induction l1 with
  | nil =>
    intro l2 c i h
    cases l2 with
    | nil => rw [comparar_itens, iguais_lista]; simp
    | cons b bs => rw [comparar_itens, iguais_lista]; simp
  | cons a as ih =>
    intro l2 c i h
    cases l2 with
    | nil => rw [comparar_itens, iguais_lista]; simp
    | cons b bs =>
      rw [comparar_itens, iguais_lista]
      rw [List.append_eq_nil]
      rw [h a (by simp) b (by simp) _,
        ih bs c (i + 1) (fun x hx y hy c0 =>
          h x (List.mem_cons_of_mem a hx) y (List.mem_cons_of_mem b hy) c0)]
      simp

theorem comuns_empty_iff (d1 d2 : List (String × Value)) (ks : List String) (c : String)
    (h : ∀ k ∈ ks, ∀ c0 : String,
      (comparar_valores (dict_get d1 k) (dict_get d2 k) c0 = [] ↔
        iguais_para_diff (dict_get d1 k) (dict_get d2 k) = true)) :
    (comparar_comuns d1 d2 ks c = [] ↔ iguais_comuns d1 d2 ks = true) := by
  induction ks with
  | nil => rw [comparar_comuns, iguais_comuns]; simp
  | cons k t ih =>
    rw [comparar_comuns, iguais_comuns]
    rw [List.append_eq_nil]
    rw [h k (by simp) _, ih (fun x hx c0 => h x (List.mem_cons_of_mem k hx) c0)]
    simp

theorem cv_empty_iff_aux : ∀ (n : Nat) (v1 v2 : Value) (c : String),
    sizeOf v1 + sizeOf v2 ≤ n →
    (comparar_valores v1 v2 c = [] ↔ iguais_para_diff v1 v2 = true) := by
  intro n
  induction n with
  | zero =>
    intro v1 v2 c h
    have := sizeOf_value_pos v1
    have := sizeOf_value_pos v2
    omega
  | succ n ih =>
    intro v1 v2 c hv
    rcases cv_cases v1 v2 c with ⟨h, heq⟩ | ⟨l1, l2, rfl, rfl⟩ | ⟨d1, d2, rfl, rfl⟩ |
      ⟨hs, ht, heq⟩
    · rw [heq, ig_ne h]
      simp
    · rw [cv_list, ig_list]
      have hsub : ∀ a ∈ ordenar_lista l1, ∀ b ∈ ordenar_lista l2, ∀ c0 : String,
          (comparar_valores a b c0 = [] ↔ iguais_para_diff a b = true) := by
        intro a ha b hb c0
        have h1 := sizeOf_mem_ordenar_lista ha
        have h2 := sizeOf_mem_ordenar_lista hb
        have hl : sizeOf (Value.list l1) + sizeOf (Value.list l2) ≤ n + 1 := hv
        simp only [Value.list.sizeOf_spec] at hl
        exact ih a b c0 (by omega)
      by_cases hlen : (ordenar_lista l1).length = (ordenar_lista l2).length
      · rw [if_neg (by simp [hlen]), List.nil_append,
          itens_empty_iff _ _ _ _ hsub]
        simp [hlen]
      · rw [if_pos hlen]
        simp only [List.cons_append]
        constructor
        · intro hfalse
          exact absurd hfalse (by simp)
        · intro hfalse
          rw [Bool.and_eq_true] at hfalse
          exact absurd (by simpa using hfalse.1) hlen
    · rw [cv_dict, ig_dict]
      have hsub : ∀ k ∈ (d1.map Prod.fst).filter
            (fun chave => (d2.map Prod.fst).contains chave), ∀ c0 : String,
          (comparar_valores (dict_get d1 k) (dict_get d2 k) c0 = [] ↔
            iguais_para_diff (dict_get d1 k) (dict_get d2 k) = true) := by
        intro k hk c0
        have h1 := sizeOf_dict_get d1 k
        have h2 := sizeOf_dict_get d2 k
        have hl : sizeOf (Value.dict d1) + sizeOf (Value.dict d2) ≤ n + 1 := hv
        simp only [Value.dict.sizeOf_spec] at hl
        exact ih _ _ c0 (by omega)
      rw [List.append_eq_nil, comuns_empty_iff _ _ _ _ hsub]
      simp [List.isEmpty_iff]
    · rw [heq, ig_scalar v1 v2 ht hs]
      cases hb : vbeq (normalizar_valor v1) (normalizar_valor v2) <;> simp [hb]

/-- `comparar_valores` returns no records exactly when the two values are
related by `iguais_para_diff`, the equivalence actually decided by the code. -/
theorem cv_empty_iff (v1 v2 : Value) (c : String) :
    comparar_valores v1 v2 c = [] ↔ iguais_para_diff v1 v2 = true :=
  cv_empty_iff_aux (sizeOf v1 + sizeOf v2) v1 v2 c le_rfl

theorem comparavel_symm (x y : Value) : comparavel x y = comparavel y x := by
  unfold comparavel
  cases sortKey x <;> cases sortKey y <;> rfl

theorem allPairs_iff (l : List Value) :
    allPairsComparable l = true ↔ l.Pairwise (fun x y => comparavel x y = true) := by
  induction l with
  | nil => simp [allPairsComparable]
  | cons x t ih =>
    rw [allPairsComparable, Bool.and_eq_true, List.pairwise_cons, ih, List.all_eq_true]

theorem allPairs_perm {l l' : List Value} (h : l.Perm l') :
    allPairsComparable l = allPairsComparable l' := by
  have hsym : ∀ {x y : Value}, comparavel x y = true → comparavel y x = true :=
    fun {x y} hxy => by rw [comparavel_symm]; exact hxy
  cases hb : allPairsComparable l' with
  | true =>
    rw [allPairs_iff] at hb ⊢
    exact (h.pairwise_iff hsym).mpr hb
  | false =>
    rw [← Bool.not_eq_true] at hb ⊢
    rw [allPairs_iff] at hb ⊢
    exact fun hc => hb ((h.pairwise_iff hsym).mp hc)

theorem sortMaybe_pos {l : List Value} (h : allPairsComparable l = true) :
    sortMaybe l = List.insertionSort keyle l := by
  simp [sortMaybe, sorted_or_err, h]

theorem sortMaybe_neg {l : List Value} (h : ¬ allPairsComparable l = true) :
    sortMaybe l = l := by
  simp [sortMaybe, sorted_or_err, h]

theorem sortMaybe_idem (m : List Value) : sortMaybe (sortMaybe m) = sortMaybe m := by
  by_cases h : allPairsComparable m = true
  · have h2 : allPairsComparable (List.insertionSort keyle m) = true := by
      rw [allPairs_perm (List.perm_insertionSort keyle m)]
      exact h
    rw [sortMaybe_pos h, sortMaybe_pos h2]
    exact List.Sorted.insertionSort_eq (List.sorted_insertionSort keyle m)
  · rw [sortMaybe_neg h, sortMaybe_neg h]

theorem sortEntries_idem (d : List (String × Value)) :
    sortEntries (sortEntries d) = sortEntries d :=
  List.Sorted.insertionSort_eq (List.sorted_insertionSort entryle d)

theorem canonList_of_fixed : ∀ {m : List Value}, (∀ x ∈ m, canonV x = x) → canonList m = m := by
  intro m
  induction m with
  | nil => intro _; rfl
  | cons x t ih =>
    intro h
    rw [canonList, h x (by simp), ih (fun y hy => h y (List.mem_cons_of_mem x hy))]

theorem canonEntries_of_fixed : ∀ {m : List (String × Value)},
    (∀ p ∈ m, canonV p.2 = p.2) → canonEntries m = m := by
  intro m
  induction m with
  | nil => intro _; rfl
  | cons p t ih =>
    intro h
    cases p with
    | mk k v =>
      rw [canonEntries]
      have h1 : canonV v = v := h (k, v) (by simp)
      rw [h1, ih (fun y hy => h y (List.mem_cons_of_mem (k, v) hy))]

mutual
theorem canonV_idem : ∀ v : Value, canonV (canonV v) = canonV v
  | .null => rfl
  | .bool _ => rfl
  | .int _ => rfl
  | .float _ => rfl
  | .str _ => rfl
  | .list l => by
    rw [canonV_list, canonV_list]
    congr 1
    unfold ordenar_lista
    rw [canonList_of_fixed (fun x hx => by
      rw [(sortMaybe_perm (canonList l)).mem_iff] at hx
      exact canonList_fixed l x hx)]
    exact sortMaybe_idem (canonList l)
  | .dict d => by
    rw [canonV_dict, canonV_dict]
    congr 1
    unfold ordenar_dicionario
    rw [canonEntries_of_fixed (fun p hp => by
      rw [(sortEntries_perm (canonEntries d)).mem_iff] at hp
      exact canonEntries_fixed d p hp)]
    exact sortEntries_idem (canonEntries d)
theorem canonList_fixed : ∀ l : List Value, ∀ x ∈ canonList l, canonV x = x
  | [] => by intro x hx; rw [canonList] at hx; cases hx
  | v :: t => by
    intro x hx
    rw [canonList] at hx
    rcases List.mem_cons.mp hx with rfl | hx
    · exact canonV_idem v
    · exact canonList_fixed t x hx
theorem canonEntries_fixed : ∀ d : List (String × Value), ∀ p ∈ canonEntries d, canonV p.2 = p.2
  | [] => by intro p hp; rw [canonEntries] at hp; cases hp
  | (k, v) :: t => by
    intro p hp
    rw [canonEntries] at hp
    rcases List.mem_cons.mp hp with rfl | hp
    · exact canonV_idem v
    · exact canonEntries_fixed t p hp
end

theorem ordenar_lista_idem (l : List Value) :
    ordenar_lista (ordenar_lista l) = ordenar_lista l := by
  have h := canonV_idem (.list l)
  rw [canonV_list, canonV_list] at h
  exact Value.list.inj h

theorem ordenar_dicionario_idem (d : List (String × Value)) :
    ordenar_dicionario (ordenar_dicionario d) = ordenar_dicionario d := by
  have h := canonV_idem (.dict d)
  rw [canonV_dict, canonV_dict] at h
  exact Value.dict.inj h

theorem eq_of_perm_sorted_local {α : Type} {r : α → α → Prop} :
    ∀ {l1 l2 : List α}, l1.Perm l2 → l1.Sorted r → l2.Sorted r →
    (∀ x ∈ l1, ∀ y ∈ l1, r x y → r y x → x = y) → l1 = l2 := by
  intro l1
  induction l1 with
  | nil =>
    intro l2 hp _ _ _
    rw [← hp.symm.eq_nil]
  | cons a t1 ih =>
    intro l2 hp hs1 hs2 hanti
    cases l2 with
    | nil => exact absurd hp.eq_nil (by simp)
    | cons b t2 =>
      have hab : a = b := by
        have hainl2 : a ∈ b :: t2 := hp.subset (List.mem_cons_self a t1)
        have hbinl1 : b ∈ a :: t1 := hp.symm.subset (List.mem_cons_self b t2)
        rcases List.mem_cons.mp hainl2 with h1 | h1
        · exact h1
        rcases List.mem_cons.mp hbinl1 with h2 | h2
        · exact h2.symm
        have hra : r b a := List.rel_of_sorted_cons hs2 a h1
        have hrb : r a b := List.rel_of_sorted_cons hs1 b h2
        exact hanti a (List.mem_cons_self a t1) b (List.mem_cons_of_mem a h2) hrb hra
      subst hab
      have ht : t1.Perm t2 := hp.cons_inv
      rw [ih ht hs1.of_cons hs2.of_cons
        (fun x hx y hy h1 h2 =>
          hanti x (List.mem_cons_of_mem a hx) y (List.mem_cons_of_mem a hy) h1 h2)]

theorem pairwise_forall {α : Type} {R : α → α → Prop}
    (hsym : ∀ {x y : α}, R x y → R y x) :
    ∀ {l : List α}, l.Pairwise R → ∀ x ∈ l, ∀ y ∈ l, x ≠ y → R x y := by
  intro l hp
  induction hp with
  | nil => intro x hx; cases hx
  | cons hhead _ ih =>
    intro x hx y hy hne
    rcases List.mem_cons.mp hx with h1 | h1
    · subst h1
      rcases List.mem_cons.mp hy with h2 | h2
      · exact absurd h2.symm hne
      · exact hhead y h2
    · rcases List.mem_cons.mp hy with h2 | h2
      · subst h2
        exact hsym (hhead x h1)
      · exact ih x h1 y h2 hne

theorem canonV_scalar {v : Value} (h : isScalar v = true) : canonV v = v := by
  cases v <;> simp_all [canonV, isScalar]

theorem canonList_scalars {l : List Value} (h : ∀ x ∈ l, isScalar x = true) :
    canonList l = l :=
  canonList_of_fixed (fun x hx => canonV_scalar (h x hx))

theorem ordenar_lista_scalars {l : List Value} (hs : ∀ x ∈ l, isScalar x = true)
    (hcomp : allPairsComparable l = true) :
    ordenar_lista l = List.insertionSort keyle l := by
  unfold ordenar_lista
  rw [canonList_scalars hs, sortMaybe_pos hcomp]

theorem keys_canonEntries (d : List (String × Value)) :
    (canonEntries d).map Prod.fst = d.map Prod.fst := by
  rw [canonEntries_eq_map, List.map_map]
  rfl

/-- Canonicalizing a dict is invariant under permuting its entries, as long
as the keys are distinct (as they always are for a Python dict). -/
theorem ordenar_dicionario_perm_eq {d d' : List (String × Value)}
    (hnd : (d.map Prod.fst).Nodup) (hp : d'.Perm d) :
    ordenar_dicionario d' = ordenar_dicionario d := by
  have hmapperm : (canonEntries d').Perm (canonEntries d) := by
    rw [canonEntries_eq_map, canonEntries_eq_map]
    exact hp.map _
  have hnd' : ((canonEntries d').map Prod.fst).Nodup := by
    rw [keys_canonEntries]
    exact ((hp.map Prod.fst).nodup_iff).mpr hnd
  unfold ordenar_dicionario sortEntries
  apply eq_of_perm_sorted_local (r := entryle)
  · exact (List.perm_insertionSort entryle _).trans
      (hmapperm.trans (List.perm_insertionSort entryle _).symm)
  · exact List.sorted_insertionSort entryle _
  · exact List.sorted_insertionSort entryle _
  · intro x hx y hy h1 h2
    have hkey : x.1 = y.1 := pyStrLe_antisymm h1 h2
    rw [(List.perm_insertionSort entryle _).mem_iff] at hx hy
    exact List.inj_on_of_nodup_map hnd' hx hy hkey

/-- Sorting a list of mutually orderable scalars, no two of which share a
sort key without being the same value, yields the same result for every
permutation of the list. -/
theorem ordenar_lista_perm_eq {l l' : List Value} (hp : l'.Perm l)
    (hs : ∀ x ∈ l, isScalar x = true)
    (hdist : ∀ x ∈ l, ∀ y ∈ l, sortKey x = sortKey y → x = y)
    (hcomp : allPairsComparable l = true) :
    ordenar_lista l' = ordenar_lista l := by
  have hs' : ∀ x ∈ l', isScalar x = true := fun x hx => hs x (hp.subset hx)
  have hcomp' : allPairsComparable l' = true := by
    rw [allPairs_perm hp]
    exact hcomp
  rw [ordenar_lista_scalars hs hcomp, ordenar_lista_scalars hs' hcomp']
  apply eq_of_perm_sorted_local (r := keyle)
  · exact (List.perm_insertionSort keyle _).trans
      (hp.trans (List.perm_insertionSort keyle _).symm)
  · exact List.sorted_insertionSort keyle _
  · exact List.sorted_insertionSort keyle _
  · intro x hx y hy h1 h2
    rw [(List.perm_insertionSort keyle _).mem_iff] at hx hy
    have hkey : sortKey x = sortKey y := skle_antisymm h1 h2
    exact hdist x (hp.subset hx) y (hp.subset hy) hkey

theorem itens_kinds (l1 : List Value) : ∀ (l2 : List Value) (c : String) (i : Nat),
    (∀ a ∈ l1, ∀ b ∈ l2, ∀ c0 : String, ∀ r ∈ comparar_valores a b c0,
      r.tipo_diferenca ≠ "CAMPO_AUSENTE_JSON1") →
    ∀ r ∈ comparar_itens l1 l2 c i, r.tipo_diferenca ≠ "CAMPO_AUSENTE_JSON1" := by
  induction l1 with
  | nil =>
    intro l2
    induction l2 with
    | nil => intro c i _ r hr; rw [comparar_itens] at hr; cases hr
    | cons b bs ihb =>
      intro c i h r hr
      rw [comparar_itens] at hr
      rcases List.mem_cons.mp hr with rfl | hr
      · simp [registro_item_ausente1]
      · exact ihb c (i + 1) (fun a ha => absurd ha (by simp)) r hr
  | cons a as ih =>
    intro l2 c i h r hr
    cases l2 with
    | nil =>
      rw [comparar_itens] at hr
      rcases List.mem_cons.mp hr with rfl | hr
      · simp [registro_item_ausente2]
      · exact ih [] c (i + 1) (fun x hx b hb => absurd hb (by simp)) r hr
    | cons b bs =>
      rw [comparar_itens] at hr
      rcases List.mem_append.mp hr with hr | hr
      · exact h a (by simp) b (by simp) _ r hr
      · exact ih bs c (i + 1)
          (fun x hx y hy c0 => h x (List.mem_cons_of_mem a hx) y (List.mem_cons_of_mem b hy) c0)
          r hr

theorem comuns_kinds (d1 d2 : List (String × Value)) (ks : List String) (c : String)
    (h : ∀ k ∈ ks, ∀ c0 : String, ∀ r ∈ comparar_valores (dict_get d1 k) (dict_get d2 k) c0,
      r.tipo_diferenca ≠ "CAMPO_AUSENTE_JSON1") :
    ∀ r ∈ comparar_comuns d1 d2 ks c, r.tipo_diferenca ≠ "CAMPO_AUSENTE_JSON1" := by
  induction ks with
  | nil => intro r hr; rw [comparar_comuns] at hr; cases hr
  | cons k t ih =>
    intro r hr
    rw [comparar_comuns] at hr
    rcases List.mem_append.mp hr with hr | hr
    · exact h k (by simp) _ r hr
    · exact ih (fun x hx c0 => h x (List.mem_cons_of_mem k hx) c0) r hr

theorem cv_kinds_aux : ∀ (n : Nat) (v1 v2 : Value) (c : String), sizeOf v1 + sizeOf v2 ≤ n →
    ∀ r ∈ comparar_valores v1 v2 c, r.tipo_diferenca ≠ "CAMPO_AUSENTE_JSON1" := by
  intro n
  induction n with
  | zero =>
    intro v1 v2 c h
    have := sizeOf_value_pos v1
    have := sizeOf_value_pos v2
    omega
  | succ n ih =>
    intro v1 v2 c hv
    rcases cv_cases v1 v2 c with ⟨h, heq⟩ | ⟨l1, l2, rfl, rfl⟩ | ⟨d1, d2, rfl, rfl⟩ |
      ⟨hs, ht, heq⟩
    · rw [heq]
      intro r hr
      rcases List.mem_cons.mp hr with rfl | hr
      · simp [registro_tipo]
      · cases hr
    · rw [cv_list]
      intro r hr
      rcases List.mem_append.mp hr with hr | hr
      · by_cases hlen : (ordenar_lista l1).length ≠ (ordenar_lista l2).length
        · rw [if_pos hlen] at hr
          rcases List.mem_cons.mp hr with rfl | hr
          · simp [registro_quantidade]
          · cases hr
        · rw [if_neg hlen] at hr
          cases hr
      · refine itens_kinds _ _ _ _ ?_ r hr
        intro a ha b hb c0 r0 hr0
        have h1 := sizeOf_mem_ordenar_lista ha
        have h2 := sizeOf_mem_ordenar_lista hb
        have hl : sizeOf (Value.list l1) + sizeOf (Value.list l2) ≤ n + 1 := hv
        simp only [Value.list.sizeOf_spec] at hl
        exact ih a b c0 (by omega) r0 hr0
    · rw [cv_dict]
      intro r hr
      rcases List.mem_append.mp hr with hr | hr
      · obtain ⟨k, hk, rfl⟩ := List.mem_map.mp hr
        simp [registro_campo_ausente]
      · refine comuns_kinds _ _ _ _ ?_ r hr
        intro k hk c0 r0 hr0
        have h1 := sizeOf_dict_get d1 k
        have h2 := sizeOf_dict_get d2 k
        have hl : sizeOf (Value.dict d1) + sizeOf (Value.dict d2) ≤ n + 1 := hv
        simp only [Value.dict.sizeOf_spec] at hl
        exact ih _ _ c0 (by omega) r0 hr0
    · rw [heq]
      intro r hr
      by_cases hb : vbeq (normalizar_valor v1) (normalizar_valor v2) = true
      · rw [if_pos hb] at hr
        cases hr
      · rw [if_neg hb] at hr
        rcases List.mem_cons.mp hr with rfl | hr
        · simp [registro_valor]
        · cases hr

theorem cv_kinds (v1 v2 : Value) (c : String) :
    ∀ r ∈ comparar_valores v1 v2 c, r.tipo_diferenca ≠ "CAMPO_AUSENTE_JSON1" :=
  cv_kinds_aux (sizeOf v1 + sizeOf v2) v1 v2 c le_rfl

/-- Claim C1, corrected.  The sequence of difference records is empty exactly
when the two values are related by `iguais_para_diff` — equal kinds at every
compared position, lists equal pointwise after the canonical sort, objects
with every left key present and equal on the right (right-only keys are
invisible), scalars equal after numeric normalization.  This differs from the
spec's rule in both directions: right-only object keys do not break emptiness,
and an int and a float that are numerically equal are a kind mismatch, not
equal (see the counterexample). -/
theorem C1_diff_vazio_sse_iguais :
    (∀ (v1 v2 : Value) (caminho : String),
      comparar_valores v1 v2 caminho = [] ↔ iguais_para_diff v1 v2 = true) ∧
    (∀ d1 d2 : List (String × Value),
      comparar_json (.dict d1) (.dict d2) = .ok [] ↔
        iguais_para_diff (.dict (ordenar_dicionario d1))
          (.dict (ordenar_dicionario d2)) = true) := by
  refine ⟨cv_empty_iff, fun d1 d2 => ?_⟩
  rw [comparar_json_dict]
  constructor
  · intro h
    injection h with h2
    exact (cv_empty_iff _ _ _).mp h2
  · intro h
    rw [(cv_empty_iff _ _ _).mpr h]

/-- Claim C1, counterexample to the claim as stated: diffing `{}` against
`{"b": 2}` yields no records although the canonical forms are not deeply
equal under the spec's rule (the right-only key is invisible to the code);
and `{"x": 3}` against `{"x": 3.0}` has deeply-equal canonical forms under
the spec's rule (numerically equal numbers are equal) yet yields a record. -/
theorem C1_contraexemplo :
    (comparar_json (.dict []) (.dict [("b", .int 2)]) = .ok [] ∧
      specDeepEq (canonV (.dict ([] : List (String × Value))))
        (canonV (.dict [("b", .int 2)])) = false) ∧
    (specDeepEq (canonV (.dict [("x", .int 3)])) (canonV (.dict [("x", .float 3)])) = true ∧
      comparar_json (.dict [("x", .int 3)]) (.dict [("x", .float 3)]) ≠ .ok []) := by
  refine ⟨⟨?_, by decide⟩, by decide, ?_⟩
  · rw [comparar_json_dict, cv_eq_fuel 2000 _ _ _ (by decide)]
    decide
  · rw [comparar_json_dict, cv_eq_fuel 2000 _ _ _ (by decide)]
    decide

/-- Claim C2: diffing `{"x": 3}` against `{"x": 3.0}` is claimed to yield no
records; the code instead emits one TIPO_DIFERENTE record at path `x`,
because the type check (`int` vs `float`) fires before `normalizar_valor`
ever sees the pair. -/
theorem C2_divergencia_int_float :
    comparar_json (.dict [("x", .int 3)]) (.dict [("x", .float 3)]) =
      .ok [{ caminho := "x", tipo_diferenca := "TIPO_DIFERENTE", valor_json1 := "3",
             tipo_json1 := "int", valor_json2 := "3.0", tipo_json2 := "float",
             detalhes := "Tipos diferentes: int vs float" }] := by
  rw [comparar_json_dict, cv_eq_fuel 2000 _ _ _ (by decide)]
  decide

/-- Claim C3, counterexample to the claim as stated: `comparar_json` calls
`ordenar_dicionario` (hence `.keys()`) on both arguments unconditionally, so
a well-formed JSON value whose top level is an array or a scalar raises
AttributeError instead of returning normally. -/
theorem C3_contraexemplo :
    comparar_json (.list []) (.list []) =
      .error "AttributeError: object has no attribute keys" ∧
    comparar_json (.str "x") (.dict []) =
      .error "AttributeError: object has no attribute keys" := ⟨rfl, rfl⟩

/-- Claim C3, amended: on object-rooted inputs the differ is total — it
always returns normally with a list of records; in particular an array whose
elements are not mutually orderable (an int, a str and a null) is handled by
the silent sort fallback and compares clean against itself. -/
theorem C3_total_para_objetos :
    (∀ d1 d2 : List (String × Value),
      ∃ registros, comparar_json (.dict d1) (.dict d2) = .ok registros) ∧
    comparar_json (.dict [("l", .list [.int 1, .str "a", .null])])
      (.dict [("l", .list [.int 1, .str "a", .null])]) = .ok [] := by
  refine ⟨fun d1 d2 => ⟨_, comparar_json_dict d1 d2⟩, ?_⟩
  rw [comparar_json_dict, cv_refl]

/-- Claim C4, counterexample to the claim as stated: comparing a present
non-null left value against a present JSON null yields a TYPE_MISMATCH whose
right display IS the missing-field sentinel, not the textual representation
"None" of null — the code tests `valor2 is not None`, which is exactly the
JSON-null test. -/
theorem C4_contraexemplo :
    comparar_valores (.int 1) .null "x" =
      [{ caminho := "x", tipo_diferenca := "TIPO_DIFERENTE", valor_json1 := "1",
         tipo_json1 := "int", valor_json2 := "CAMPO_NAO_EXISTE", tipo_json2 := "None",
         detalhes := "Tipos diferentes: int vs None" }] ∧
    str_py .null = "None" ∧ ("CAMPO_NAO_EXISTE" : String) ≠ "None" := by
  refine ⟨?_, rfl, by decide⟩
  rw [cv_eq_fuel 2000 _ _ _ (by decide)]
  decide

/-- Claim C4, amended: in a TYPE_MISMATCH record the right display value is
the missing-field sentinel exactly when the right value is the JSON null, and
the textual representation of the right value otherwise.  (A structurally
absent right side never reaches the TYPE_MISMATCH branch at all: missing
keys and items are reported through their own record kinds.) -/
theorem C4_sentinela_para_null :
    ∀ (v1 v2 : Value) (caminho : String), obter_tipo v1 ≠ obter_tipo v2 →
      (comparar_valores v1 v2 caminho).map Registro.valor_json2 =
        [match v2 with | .null => "CAMPO_NAO_EXISTE" | v => str_py v] := by
  intro v1 v2 c h
  rw [cv_ne c h]
  rfl

/-- Claim C4, witness: a concrete type mismatch against a non-null right
value displays the right value's text. -/
theorem C4_testemunha :
    (comparar_valores (.str "a") (.int 1) "p").map Registro.valor_json2 = ["1"] := by
  have h := C4_sentinela_para_null (.str "a") (.int 1) "p" (by decide)
  simpa using h

/-- Claim C5, corrected.  Object half as claimed: permuting the entries of a
dict with distinct keys never produces records.  Array half amended: it holds
for arrays of mutually orderable scalars PROVIDED no two distinct elements
share a sort key (e.g. the numerically equal `1` and `1.0`, which the stable
sort keeps in their original relative order on each side and the differ then
flags as a type mismatch — see the counterexample). -/
theorem C5_insensibilidade_a_ordem :
    (∀ d d' : List (String × Value), (d.map Prod.fst).Nodup → d'.Perm d →
      comparar_json (.dict d) (.dict d') = .ok []) ∧
    (∀ l l' : List Value, l'.Perm l → (∀ x ∈ l, isScalar x = true) →
      l.Pairwise (fun x y => comparavel x y = true ∧ (sortKey x = sortKey y → x = y)) →
      comparar_valores (.list l) (.list l') "" = []) := by
  constructor
  · intro d d' hnd hp
    rw [comparar_json_dict, ordenar_dicionario_perm_eq hnd hp, cv_refl]
  · intro l l' hp hs hpw
    have hcomp : allPairsComparable l = true :=
      (allPairs_iff l).mpr (hpw.imp (fun h => h.1))
    have hsymm : ∀ {x y : Value},
        (comparavel x y = true ∧ (sortKey x = sortKey y → x = y)) →
        (comparavel y x = true ∧ (sortKey y = sortKey x → y = x)) :=
      fun {x y} h => ⟨by rw [comparavel_symm]; exact h.1, fun hk => (h.2 hk.symm).symm⟩
    have hdist : ∀ x ∈ l, ∀ y ∈ l, sortKey x = sortKey y → x = y := by
      intro x hx y hy hk
      by_cases hxy : x = y
      · exact hxy
      · exact (pairwise_forall hsymm hpw x hx y hy hxy).2 hk
    rw [cv_list, ordenar_lista_perm_eq hp hs hdist hcomp]
    rw [if_neg (by simp)]
    rw [comparar_itens_self _ _ _ (fun x hx c0 => cv_refl x c0)]
    rfl

/-- Claim C5, counterexample to the claim as stated: `[1, 1.0]` is an array
of mutually orderable scalars and `[1.0, 1]` is a permutation of it, yet the
diff is not empty (the stable sort leaves each side in its own order, and
index 0 then compares an int against a float: a type mismatch). -/
theorem C5_contraexemplo :
    ([Value.float 1, Value.int 1].Perm [Value.int 1, Value.float 1]) ∧
    [Value.int 1, Value.float 1].all isScalar = true ∧
    allPairsComparable [Value.int 1, Value.float 1] = true ∧
    comparar_valores (.list [.int 1, .float 1]) (.list [.float 1, .int 1]) "" ≠ [] := by
  refine ⟨by decide, by decide, by decide, ?_⟩
  rw [cv_eq_fuel 2000 _ _ _ (by decide)]
  decide

/-- Claim C5, witness: a permuted two-key object and a permuted all-int
array both diff clean. -/
theorem C5_testemunha :
    comparar_json (.dict [("b", .int 1), ("a", .int 2)])
      (.dict [("a", .int 2), ("b", .int 1)]) = .ok [] ∧
    comparar_valores (.list [.int 2, .int 1]) (.list [.int 1, .int 2]) "" = [] := by
  constructor
  · exact C5_insensibilidade_a_ordem.1 _ _ (by decide) (by decide)
  · exact C5_insensibilidade_a_ordem.2 _ _ (by decide) (by decide) (by decide)

/-- Claim C6: when the two kinds differ the differ emits exactly one record,
at the current path, of kind TIPO_DIFERENTE, and recurses no further; in
particular `{"a": 1}` vs `{"a": "1"}` gives exactly one record at path `a`
with no VALOR_DIFERENTE, and `true` vs `1` is a TIPO_DIFERENTE because bool
is a kind distinct from int. -/
theorem C6_curto_circuito_de_tipo :
    (∀ (v1 v2 : Value) (caminho : String), obter_tipo v1 ≠ obter_tipo v2 →
      (comparar_valores v1 v2 caminho).map (fun r => (r.caminho, r.tipo_diferenca)) =
        [(caminho, "TIPO_DIFERENTE")]) ∧
    comparar_json (.dict [("a", .int 1)]) (.dict [("a", .str "1")]) =
      .ok [{ caminho := "a", tipo_diferenca := "TIPO_DIFERENTE", valor_json1 := "1",
             tipo_json1 := "int", valor_json2 := "1", tipo_json2 := "str",
             detalhes := "Tipos diferentes: int vs str" }] ∧
    comparar_valores (.bool true) (.int 1) "" =
      [{ caminho := "", tipo_diferenca := "TIPO_DIFERENTE", valor_json1 := "True",
         tipo_json1 := "bool", valor_json2 := "1", tipo_json2 := "int",
         detalhes := "Tipos diferentes: bool vs int" }] := by
  refine ⟨?_, ?_, ?_⟩
  · intro v1 v2 c h
    rw [cv_ne c h]
    rfl
  · rw [comparar_json_dict, cv_eq_fuel 2000 _ _ _ (by decide)]
    decide
  · rw [cv_eq_fuel 2000 _ _ _ (by decide)]
    decide

/-- Claim C6, witness: the general single-record law at a concrete mismatch. -/
theorem C6_testemunha :
    (comparar_valores (.int 1) (.str "1") "a").map (fun r => (r.caminho, r.tipo_diferenca)) =
      [("a", "TIPO_DIFERENTE")] :=
  C6_curto_circuito_de_tipo.1 (.int 1) (.str "1") "a" (by decide)

/-- Claim C7: when the two canonicalized arrays have different lengths, the
differ emits one QUANTIDADE_ITENS_DIFERENTE record at the current path, with
both lengths in the detail text, and still walks every index up to the longer
length: recursing where the index is in both arrays, and emitting the
one-sided missing-item records where it is not. -/
theorem C7_tamanhos_de_lista_diferentes :
    ∀ (l1 l2 : List Value) (caminho : String),
      (ordenar_lista l1).length ≠ (ordenar_lista l2).length →
      comparar_valores (.list l1) (.list l2) caminho =
        registro_quantidade (ordenar_lista l1).length (ordenar_lista l2).length caminho ::
          (List.range (max (ordenar_lista l1).length (ordenar_lista l2).length)).flatMap
            (fun i => match (ordenar_lista l1)[i]?, (ordenar_lista l2)[i]? with
              | some a, some b => comparar_valores a b (caminho ++ "[" ++ toString i ++ "]")
              | some a, none => [registro_item_ausente2 a (caminho ++ "[" ++ toString i ++ "]")]
              | none, some b => [registro_item_ausente1 b (caminho ++ "[" ++ toString i ++ "]")]
              | none, none => []) ∧
      (registro_quantidade (ordenar_lista l1).length (ordenar_lista l2).length
          caminho).detalhes =
        "Quantidade diferente: " ++ toString (ordenar_lista l1).length ++ " vs " ++
          toString (ordenar_lista l2).length := by
  intro l1 l2 c h
  refine ⟨?_, rfl⟩
  rw [cv_list, if_pos h, comparar_itens_eq_range]
  simp only [Nat.zero_add, List.singleton_append]

/-- Claim C7, witness: `[5]` against `[]` gives the length record followed by
the missing-item record for index 0. -/
theorem C7_testemunha :
    (ordenar_lista [Value.int 5]).length ≠ (ordenar_lista ([] : List Value)).length ∧
    comparar_valores (.list [.int 5]) (.list []) "l" =
      [registro_quantidade 1 0 "l", registro_item_ausente2 (.int 5) "l[0]"] := by
  refine ⟨by decide, ?_⟩
  rw [(C7_tamanhos_de_lista_diferentes [Value.int 5] [] "l" (by decide)).1]
  decide

/-- Claim C8: canonicalization is idempotent, at the value level and for the
two entry points the source exposes. -/
theorem C8_idempotencia_canonicalizacao :
    (∀ v : Value, canonV (canonV v) = canonV v) ∧
    (∀ l : List Value, ordenar_lista (ordenar_lista l) = ordenar_lista l) ∧
    (∀ d : List (String × Value),
      ordenar_dicionario (ordenar_dicionario d) = ordenar_dicionario d) :=
  ⟨canonV_idem, ordenar_lista_idem, ordenar_dicionario_idem⟩

/-- Claim C9: the differ never emits a CAMPO_AUSENTE_JSON1 record — that
tag does not occur anywhere in the code — and an object key present only on
the right side produces no record at all. -/
theorem C9_nunca_campo_ausente_json1 :
    (∀ (v1 v2 : Value) (caminho : String), ∀ r ∈ comparar_valores v1 v2 caminho,
      r.tipo_diferenca ≠ "CAMPO_AUSENTE_JSON1") ∧
    comparar_json (.dict [("a", .int 1)]) (.dict [("a", .int 1), ("b", .int 2)]) = .ok [] := by
  refine ⟨cv_kinds, ?_⟩
  rw [comparar_json_dict, cv_eq_fuel 2000 _ _ _ (by decide)]
  decide

/-- Claim C9, witness: no CAMPO_AUSENTE_JSON1 record is among the records of
a concrete comparison. -/
theorem C9_testemunha :
    ({ caminho := "x", tipo_diferenca := "CAMPO_AUSENTE_JSON1", valor_json1 := "",
       tipo_json1 := "", valor_json2 := "", tipo_json2 := "", detalhes := "" } : Registro) ∉
      comparar_valores (.int 1) .null "x" :=
  fun h => C9_nunca_campo_ausente_json1.1 (.int 1) .null "x" _ h rfl

/-- Claim C10: `ordenar_lista` only reorders: its result has the length of
its input and is, as a multiset, exactly the element-wise canonicalizations
of the input's elements — whether or not the best-effort sort succeeded. -/
theorem C10_ordenar_lista_permuta :
    ∀ l : List Value,
      (ordenar_lista l).length = l.length ∧ (ordenar_lista l).Perm (l.map canonV) := by
  intro l
  have hp : (ordenar_lista l).Perm (l.map canonV) := by
    have h1 := sortMaybe_perm (canonList l)
    rw [canonList_eq_map] at h1
    unfold ordenar_lista
    rw [canonList_eq_map]
    exact h1
  refine ⟨?_, hp⟩
  rw [hp.length_eq, List.length_map]
